import Mathlib

/-!
Shallow embedding of the nezoba board firmware input-translation engine
(`src/board/keys.h`, `key_handler.h`, `globals.h`, `main_loop.h`, `setup.h`)
together with theorems settling the specification claims about it.

Machine integers are modelled as `Int` / `Nat`:
`signed char` remap slots and the `int` direction accumulator stay far from
their bounds, so plain `Int` is faithful; `unsigned long` millisecond
timestamps wrap at `2 ^ 32`, which is made explicit with `% 4294967296`
wherever the C code relies on unsigned wraparound subtraction.
-/

namespace Nezoba

/-! ### Keys (`keys.h`) -/

def N_BUTTONS : Nat := 15

def N_KEYS : Nat := 42

def K_NOOP : Int := 0
def K_DP_UP : Int := 1
def K_DP_UP_RIGHT : Int := 2
def K_DP_RIGHT : Int := 3
def K_DP_DOWN_RIGHT : Int := 4
def K_DP_DOWN : Int := 5
def K_DP_DOWN_LEFT : Int := 6
def K_DP_LEFT : Int := 7
def K_DP_UP_LEFT : Int := 8
def K_DP_CENTER : Int := 9
def K_A : Int := 10
def K_B : Int := 11
def K_X : Int := 12
def K_Y : Int := 13
def K_L : Int := 14
def K_R : Int := 15
def K_ZL : Int := 16
def K_ZR : Int := 17
def K_HOME : Int := 18
def K_PLUS : Int := 19
def K_MINUS : Int := 20
def K_LS_PRESS : Int := 21
def K_RS_PRESS : Int := 22
def K_CAPTURE : Int := 23

/-- Embeds `IS_BUTTON(K)  ((K_A <= (K) && (K) <= K_CAPTURE))` from `keys.h`. -/
def IS_BUTTON (k : Int) : Bool := decide (K_A ≤ k ∧ k ≤ K_CAPTURE)

/-- Embeds `IS_DP(K)  ((K_DP_UP <= (K) && (K) <= K_DP_CENTER))` from `keys.h`. -/
def IS_DP (k : Int) : Bool := decide (K_DP_UP ≤ k ∧ k ≤ K_DP_CENTER)

/-- Embeds `KEYS2PAD` from `globals.h`: key id to `NSGamepad` constant.  The
constants' numeric values are the ones of the repository's testing stub
(`test/board/stubs.cpp`, `enum NSGamepad_values`): `NSGAMEPAD_DPAD_UP = 0`,
…, `NSGAMEPAD_DPAD_CENTERED = 8`, `NSButton_A = 9`, …, `NSButton_Capture = 22`
(`LeftThrottle = 13`, `RightThrottle = 14`, `LeftTrigger = 15`,
`RightTrigger = 16`).  The remaining `N_KEYS` entries of the C array are
zero-initialised, matching the `getD` default. -/
def KEYS2PAD_table : List Int :=
  [0, 0, 1, 2, 3, 4, 5, 6, 7, 8, 9, 10, 11, 12, 15, 16, 13, 14, 17, 18, 19, 20, 21, 22]

def KEYS2PAD (k : Int) : Int := KEYS2PAD_table.getD k.toNat 0

/-! ### Pin plumbing (`mcp.h`, `globals.h`) -/

/-- Embeds `BUTTON2MCP` from `globals.h`: button number to MCP pin. -/
def BUTTON2MCP : List Nat := [11, 12, 13, 7, 0, 1, 2, 8, 3, 4, 5, 6, 9, 10, 15]

/-- Embeds `IS_GPIOA_PIN(PIN)  ((0 <= (PIN) && (PIN) < 8))` from `mcp.h`. -/
def IS_GPIOA_PIN (p : Nat) : Bool := decide (p < 8)

/-- Embeds `PIN2BITMASK(PIN)` from `mcp.h`. -/
def PIN2BITMASK (p : Nat) : Nat :=
  if IS_GPIOA_PIN p then 1 <<< p else 1 <<< (p - 8)

/-- Embeds the pressed-button test of the main loop (`main_loop.h`): a bit is
`0` iff the digital input is LOW iff the switch is pressed; the byte it is
taken from is `GPIOA_state` or `GPIOB_state` according to the pin number. -/
def buttonPressed (gpioA gpioB : Nat) (b : Nat) : Bool :=
  let p := BUTTON2MCP.getD b 0
  let gpio := if IS_GPIOA_PIN p then gpioA else gpioB
  decide (gpio &&& PIN2BITMASK p = 0)

/-! ### Gamepad model (`NSGamepad` calls made by the engine) -/

/-- The externally visible gamepad state: the list of pressed pad codes (in
press order within the tick) and the current D-pad code. -/
structure Gamepad where
  pressed : List Int
  dpad : Int
  deriving DecidableEq

def Gamepad.press (g : Gamepad) (k : Int) : Gamepad :=
  { g with pressed := g.pressed ++ [k] }

def Gamepad.releaseAll (g : Gamepad) : Gamepad :=
  { g with pressed := [] }

def Gamepad.dPad (g : Gamepad) (d : Int) : Gamepad :=
  { g with dpad := d }

/-! ### Key handler (`key_handler.h`) -/

/-- Per-tick resolution state: the gamepad being built up plus the local
direction accumulator `dpad_x`, `dpad_y` of `main_loop.h`. -/
structure TickState where
  pad : Gamepad
  dpad_x : Int
  dpad_y : Int
  deriving DecidableEq

/-- Magnitude of a remap slot value: `if (_k < 0) _k = -(_k)` in `HANDLE_KEY`. -/
def magOf (v : Int) : Int := if v < 0 then -v else v

/-- The clamping statements at the end of `HANDLE_KEY`'s directional branch:
`if (dpad_x > 1) dpad_x = 1; else if (dpad_x < -1) dpad_x = -1;`. -/
def clampAxis (a : Int) : Int :=
  if a > 1 then 1 else if a < -1 then -1 else a

/-- The `switch (_k)` statement of `HANDLE_KEY`: directional keys update the
accumulator; any other key (in particular `K_DP_CENTER`) matches no case. -/
def dpadSwitch (k : Int) (x y : Int) : Int × Int :=
  if k = K_DP_UP then (x, y + 1)
  else if k = K_DP_DOWN then (x, y - 1)
  else if k = K_DP_LEFT then (x - 1, y)
  else if k = K_DP_RIGHT then (x + 1, y)
  else if k = K_DP_UP_RIGHT then (x + 1, y + 1)
  else if k = K_DP_DOWN_RIGHT then (x + 1, y - 1)
  else if k = K_DP_UP_LEFT then (x - 1, y + 1)
  else if k = K_DP_DOWN_LEFT then (x - 1, y - 1)
  else (x, y)

/-- Embeds the `HANDLE_KEY(KEYID, B)` macro of `key_handler.h` applied to the
slot value `v = KEYID[B]` of a pressed button.  `decide (0 ≤ v)` is the C
expression `!turboed` where `turboed` is set iff `v < 0`. -/
def HANDLE_KEY (v : Int) (TT : Bool) (s : TickState) : TickState :=
  let k := magOf v
  if ((decide (0 ≤ v)) || TT) && IS_BUTTON k then
    { s with pad := s.pad.press (KEYS2PAD k) }
  else if IS_DP k then
    let p := dpadSwitch k s.dpad_x s.dpad_y
    { s with dpad_x := clampAxis p.1, dpad_y := clampAxis p.2 }
  else
    s

/-- The x step contributed by a directional key according to `dpadSwitch`. -/
def dirStepX (k : Int) : Int :=
  if k = K_DP_RIGHT ∨ k = K_DP_UP_RIGHT ∨ k = K_DP_DOWN_RIGHT then 1
  else if k = K_DP_LEFT ∨ k = K_DP_UP_LEFT ∨ k = K_DP_DOWN_LEFT then -1
  else 0

/-- The y step contributed by a directional key according to `dpadSwitch`. -/
def dirStepY (k : Int) : Int :=
  if k = K_DP_UP ∨ k = K_DP_UP_RIGHT ∨ k = K_DP_UP_LEFT then 1
  else if k = K_DP_DOWN ∨ k = K_DP_DOWN_RIGHT ∨ k = K_DP_DOWN_LEFT then -1
  else 0

/-- How one slot resolution evolves the x accumulator, in isolation. -/
def stepFnX (a : Int) (v : Int) : Int :=
  if IS_DP (magOf v) then clampAxis (a + dirStepX (magOf v)) else a

/-- How one slot resolution evolves the y accumulator, in isolation. -/
def stepFnY (a : Int) (v : Int) : Int :=
  if IS_DP (magOf v) then clampAxis (a + dirStepY (magOf v)) else a

/-- The pad codes emitted by one slot resolution: a singleton exactly when the
slot's magnitude is an ordinary button and the turbo gate lets it through. -/
def slotPress (TT : Bool) (v : Int) : List Int :=
  if ((decide (0 ≤ v)) || TT) && IS_BUTTON (magOf v) then [KEYS2PAD (magOf v)] else []

/-! ### Debouncing (`globals.h`, `main_loop.h`) -/

def DEBOUNCING : Nat := 5

/-- Unsigned long wraps at `2 ^ 32`. -/
def ULONG_MOD : Nat := 4294967296

/-- One input group's debouncing state (`GPIOA_state`, `GPIOA_previous`,
`GPIOA_last_debounce_time` of `globals.h`; likewise for GPIOB). -/
structure DebounceState where
  state : Nat
  previous : Nat
  last_debounce_time : Nat
  deriving DecidableEq

/-- Embeds one tick of the debouncing logic of `main_loop.h`, exactly in
source order: the raw reading is first assigned to the group state
(`GPIOA_state = reading_gpioa;`), then the transition timer is reset if the
reading differs from the previous reading, then — if more than `DEBOUNCING`
ms elapsed since the last transition — the state is updated to the reading
when it differs from the (already updated) state. -/
def debounceStep (d : DebounceState) (now reading : Nat) : DebounceState :=
  let state1 := reading
  let last := if reading = d.previous then d.last_debounce_time else now
  let state2 :=
    if (now - last) % ULONG_MOD > DEBOUNCING then
      (if reading = state1 then state1 else reading)
    else state1
  { state := state2, previous := reading, last_debounce_time := last }

/-! ### Turbo clock (`globals.h`, `main_loop.h`) -/

/-- The turbo toggle flag and the last time it was toggled. -/
structure TurboState where
  TT : Bool
  last_toggle_time : Nat
  deriving DecidableEq

/-- Embeds the turbo toggling at the top of `main_loop.h`:
`if ((unsigned long)(millis() - last_toggle_time) >= TURBO_PERIOD)
 { last_toggle_time = millis(); TT = !TT; }`.
`TURBO_PERIOD` is the C double `1.6*1000.0/120.0 = 40/3 ≈ 13.33…` ms; for an
integer elapsed time `e`, the comparison `e >= TURBO_PERIOD` holds iff
`3 * e ≥ 40` (the double value lies strictly between 13 and 14, so rounding
of the constant cannot change the comparison on integers). -/
def turboStep (s : TurboState) (now : Nat) : TurboState :=
  if 3 * ((now - s.last_toggle_time) % ULONG_MOD) ≥ 40 then
    { TT := !s.TT, last_toggle_time := now }
  else s

/-- The turbo phase seen by the body of a tick that happens at time `now`. -/
def ttAfter (s : TurboState) (now : Nat) : Bool := (turboStep s now).TT

/-- The times at which the turbo toggle flips, over a run of ticks. -/
def turboToggles (s : TurboState) : List Nat → List Nat
  | [] => []
  | now :: ts =>
    let s2 := turboStep s now
    if s2.TT = s.TT then turboToggles s2 ts else now :: turboToggles s2 ts

/-! ### SOCD cleaning dispatch (`main_loop.h`) -/

/-- Embeds the `if`/`else if` SOCD dispatch chain at the end of
`main_loop.h`.  A vector outside `{-1,0,1}²` matches no branch and leaves
the gamepad untouched, exactly as the source chain (which has no final
`else`) would. -/
def socdClean (x y : Int) (g : Gamepad) : Gamepad :=
  if x = 0 ∧ y = 0 then g.dPad (KEYS2PAD K_DP_CENTER)
  else if x = 0 ∧ y = 1 then g.dPad (KEYS2PAD K_DP_UP)
  else if x = 1 ∧ y = 1 then g.dPad (KEYS2PAD K_DP_UP_RIGHT)
  else if x = 1 ∧ y = 0 then g.dPad (KEYS2PAD K_DP_RIGHT)
  else if x = 1 ∧ y = -1 then g.dPad (KEYS2PAD K_DP_DOWN_RIGHT)
  else if x = 0 ∧ y = -1 then g.dPad (KEYS2PAD K_DP_DOWN)
  else if x = -1 ∧ y = -1 then g.dPad (KEYS2PAD K_DP_DOWN_LEFT)
  else if x = -1 ∧ y = 0 then g.dPad (KEYS2PAD K_DP_LEFT)
  else if x = -1 ∧ y = 1 then g.dPad (KEYS2PAD K_DP_UP_LEFT)
  else g

/-- The canonical direction table: the pad code each clamped vector is
dispatched to by the SOCD chain (total by construction; it agrees with
`socdClean` on `{-1,0,1}²`). -/
def dirOf (x y : Int) : Int :=
  if x = 0 ∧ y = 0 then KEYS2PAD K_DP_CENTER
  else if x = 0 ∧ y = 1 then KEYS2PAD K_DP_UP
  else if x = 1 ∧ y = 1 then KEYS2PAD K_DP_UP_RIGHT
  else if x = 1 ∧ y = 0 then KEYS2PAD K_DP_RIGHT
  else if x = 1 ∧ y = -1 then KEYS2PAD K_DP_DOWN_RIGHT
  else if x = 0 ∧ y = -1 then KEYS2PAD K_DP_DOWN
  else if x = -1 ∧ y = -1 then KEYS2PAD K_DP_DOWN_LEFT
  else if x = -1 ∧ y = 0 then KEYS2PAD K_DP_LEFT
  else KEYS2PAD K_DP_UP_LEFT

/-- The nine guard conditions of the SOCD dispatch chain, as a list. -/
def socdConds (x y : Int) : List Bool :=
  [decide (x = 0 ∧ y = 0), decide (x = 0 ∧ y = 1), decide (x = 1 ∧ y = 1),
   decide (x = 1 ∧ y = 0), decide (x = 1 ∧ y = -1), decide (x = 0 ∧ y = -1),
   decide (x = -1 ∧ y = -1), decide (x = -1 ∧ y = 0), decide (x = -1 ∧ y = 1)]

/-- How many of the nine dispatch guards a vector satisfies. -/
def socdHits (x y : Int) : Nat := (socdConds x y).count true

/-! ### The tick (`main_loop.h`) -/

/-- The three remap slot arrays `KEY1`, `KEY2`, `KEY3` of `keys.h`, as filled
by `setup.h` from `MAPPINGS[CFG]`. -/
structure Mapping where
  KEY1 : Nat → Int
  KEY2 : Nat → Int
  KEY3 : Nat → Int

/-- The whole engine state mutated by one main-loop iteration. -/
structure LoopState where
  turbo : TurboState
  gpioA : DebounceState
  gpioB : DebounceState
  pad : Gamepad
  deriving DecidableEq

/-- The button resolution loop of `main_loop.h`: over all buttons, a pressed
button gets its three slots resolved by `HANDLE_KEY` in order, starting from
the released gamepad and the `(0, 0)` accumulator. -/
def tickCore (M : Mapping) (TT : Bool) (gpioA gpioB : Nat) (g : Gamepad) : TickState :=
  (List.range N_BUTTONS).foldl
    (fun st b =>
      if buttonPressed gpioA gpioB b then
        HANDLE_KEY (M.KEY3 b) TT (HANDLE_KEY (M.KEY2 b) TT (HANDLE_KEY (M.KEY1 b) TT st))
      else st)
    ⟨g.releaseAll, 0, 0⟩

/-- Embeds one full iteration of `main_loop.h`: release all buttons, advance
the turbo toggle, read and (ineffectively) debounce both GPIO groups,
resolve all pressed buttons, and dispatch the accumulated direction.
`now` stands for the tick's `millis()` value, `rawA`/`rawB` for the bytes
read from the MCP registers. -/
def tick (M : Mapping) (s : LoopState) (now rawA rawB : Nat) : LoopState :=
  let ts := turboStep s.turbo now
  let dA := debounceStep s.gpioA now rawA
  let dB := debounceStep s.gpioB now rawB
  let core := tickCore M ts.TT dA.state dB.state s.pad
  let g1 := socdClean core.dpad_x core.dpad_y core.pad
  { turbo := ts, gpioA := dA, gpioB := dB, pad := g1 }

/-- The sequence of slot values a tick resolves, in resolution order. -/
def slotsOf (M : Mapping) (gpioA gpioB : Nat) : List Int :=
  (List.range N_BUTTONS).flatMap
    (fun b => if buttonPressed gpioA gpioB b then [M.KEY1 b, M.KEY2 b, M.KEY3 b] else [])

/-! ### Configuration number (`setup.h`, `keys.h`) -/

def N_REMAPPINGS : Nat := 16

/-- Embeds `CFG = (cfg1 << 3) + (cfg2 << 2) + (cfg3 << 1) + cfg4;` from
`setup.h`, where each `cfgN` is the C bool (implicitly converted to `0`/`1`)
derived from one configuration input. -/
def computeCFG (cfg1 cfg2 cfg3 cfg4 : Bool) : Nat :=
  ((cond cfg1 1 0) <<< 3) + ((cond cfg2 1 0) <<< 2) + ((cond cfg3 1 0) <<< 1) + (cond cfg4 1 0)

/-! ### Saturating accumulation versus clamp-after-summation -/

/-- One directional contribution as the code applies it: add, then clamp. -/
def satAdd (a d : Int) : Int := clampAxis (a + d)

/-- The nonzero x contributions of a slot sequence, in order. -/
def xContribs (l : List Int) : List Int :=
  l.filterMap
    (fun v =>
      if IS_DP (magOf v) && decide (dirStepX (magOf v) ≠ 0) then some (dirStepX (magOf v))
      else none)

/-- The nonzero y contributions of a slot sequence, in order. -/
def yContribs (l : List Int) : List Int :=
  l.filterMap
    (fun v =>
      if IS_DP (magOf v) && decide (dirStepY (magOf v) ≠ 0) then some (dirStepY (magOf v))
      else none)

/-- Modelled from the spec (DirectionAggregator contract): the exact integer
sum of all x contributions of a tick's resolved slots, before any clamping. -/
def sumContribsX (l : List Int) : Int :=
  (l.map (fun v => if IS_DP (magOf v) then dirStepX (magOf v) else 0)).sum

/-- Modelled from the spec (DirectionAggregator contract): the exact integer
sum of all y contributions of a tick's resolved slots, before any clamping. -/
def sumContribsY (l : List Int) : Int :=
  (l.map (fun v => if IS_DP (magOf v) then dirStepY (magOf v) else 0)).sum

/-- The declarative per-tick press list: every pressed button's slots, each
contributing the press its turbo gate lets through. -/
def resolvedPresses (M : Mapping) (TT : Bool) (gpioA gpioB : Nat) : List Int :=
  (slotsOf M gpioA gpioB).flatMap (slotPress TT)

/-- A remap table with three directional slots on button 0 (up, up, down):
legal slot values on which per-contribution clamping and
clamping-after-summation disagree. -/
def cexMapping : Mapping :=
  ⟨fun b => if b = 0 then K_DP_UP else K_NOOP,
   fun b => if b = 0 then K_DP_UP else K_NOOP,
   fun b => if b = 0 then K_DP_DOWN else K_NOOP⟩

/-- A quiescent engine state: turbo off, both GPIO groups stable at `0xff`,
gamepad centered with nothing pressed. -/
def initState : LoopState :=
  ⟨⟨false, 0⟩, ⟨255, 255, 0⟩, ⟨255, 255, 0⟩, ⟨[], KEYS2PAD K_DP_CENTER⟩⟩

/-! ## Lemmas and claim theorems -/

/-! ### Basic facts about the key handler -/

theorem IS_BUTTON_not_IS_DP {k : Int} (h : IS_BUTTON k = true) : IS_DP k = false := by
  simp only [IS_BUTTON, IS_DP, K_A, K_CAPTURE, K_DP_UP, K_DP_CENTER,
    decide_eq_true_eq, decide_eq_false_iff_not] at *
  omega

theorem dpadSwitch_eq_step (k x y : Int) (h : IS_DP k = true) :
    dpadSwitch k x y = (x + dirStepX k, y + dirStepY k) := by
  simp only [IS_DP, K_DP_UP, K_DP_CENTER, decide_eq_true_eq] at h
  obtain ⟨h1, h2⟩ := h
  interval_cases k <;>
    simp [dpadSwitch, dirStepX, dirStepY, K_DP_UP, K_DP_DOWN, K_DP_LEFT, K_DP_RIGHT,
      K_DP_UP_RIGHT, K_DP_DOWN_RIGHT, K_DP_UP_LEFT, K_DP_DOWN_LEFT, Int.sub_eq_add_neg]

theorem clampAxis_range (a : Int) : -1 ≤ clampAxis a ∧ clampAxis a ≤ 1 := by
  unfold clampAxis
  split <;> [omega; (split <;> omega)]

theorem clampAxis_of_range {a : Int} (h1 : -1 ≤ a) (h2 : a ≤ 1) : clampAxis a = a := by
  unfold clampAxis
  split <;> [omega; (split <;> omega)]

theorem HANDLE_KEY_dpad_x (v : Int) (TT : Bool) (s : TickState) :
    (HANDLE_KEY v TT s).dpad_x = stepFnX s.dpad_x v := by
  unfold HANDLE_KEY stepFnX
  by_cases hb : (((decide (0 ≤ v)) || TT) && IS_BUTTON (magOf v)) = true
  · have hdp := IS_BUTTON_not_IS_DP (Bool.and_elim_right hb)
    simp [hb, hdp]
  · simp only [hb, if_neg, Bool.not_eq_true] at *
    by_cases hdp : IS_DP (magOf v) = true
    · simp [hb, hdp, dpadSwitch_eq_step _ s.dpad_x s.dpad_y hdp]
    · simp [hb, hdp]

theorem HANDLE_KEY_dpad_y (v : Int) (TT : Bool) (s : TickState) :
    (HANDLE_KEY v TT s).dpad_y = stepFnY s.dpad_y v := by
  unfold HANDLE_KEY stepFnY
  by_cases hb : (((decide (0 ≤ v)) || TT) && IS_BUTTON (magOf v)) = true
  · have hdp := IS_BUTTON_not_IS_DP (Bool.and_elim_right hb)
    simp [hb, hdp]
  · simp only [hb, if_neg, Bool.not_eq_true] at *
    by_cases hdp : IS_DP (magOf v) = true
    · simp [hb, hdp, dpadSwitch_eq_step _ s.dpad_x s.dpad_y hdp]
    · simp [hb, hdp]

theorem HANDLE_KEY_pressed (v : Int) (TT : Bool) (s : TickState) :
    (HANDLE_KEY v TT s).pad.pressed = s.pad.pressed ++ slotPress TT v := by
  unfold HANDLE_KEY slotPress
  by_cases hb : (((decide (0 ≤ v)) || TT) && IS_BUTTON (magOf v)) = true
  · simp [hb, Gamepad.press]
  · by_cases hdp : IS_DP (magOf v) = true
    · simp [hb, hdp]
    · simp [hb, hdp]

theorem HANDLE_KEY_pad_dpad (v : Int) (TT : Bool) (s : TickState) :
    (HANDLE_KEY v TT s).pad.dpad = s.pad.dpad := by
  unfold HANDLE_KEY
  by_cases hb : (((decide (0 ≤ v)) || TT) && IS_BUTTON (magOf v)) = true
  · simp [hb, Gamepad.press]
  · by_cases hdp : IS_DP (magOf v) = true
    · simp [hb, hdp]
    · simp [hb, hdp]

/-! ### Decomposing the tick's button loop into a fold over slots -/

theorem foldl_buttons_eq_slots (M : Mapping) (TT : Bool) (gpioA gpioB : Nat) :
    ∀ (l : List Nat) (st : TickState),
      l.foldl
        (fun st b =>
          if buttonPressed gpioA gpioB b then
            HANDLE_KEY (M.KEY3 b) TT (HANDLE_KEY (M.KEY2 b) TT (HANDLE_KEY (M.KEY1 b) TT st))
          else st) st
      = (l.flatMap
          (fun b => if buttonPressed gpioA gpioB b then [M.KEY1 b, M.KEY2 b, M.KEY3 b] else [])).foldl
          (fun st v => HANDLE_KEY v TT st) st := by
  intro l
  induction l with
  | nil => intro st; rfl
  | cons b l ih =>
    intro st
    by_cases hp : buttonPressed gpioA gpioB b = true <;>
      simp [hp, List.foldl_append, ih]

theorem tickCore_eq_foldl (M : Mapping) (TT : Bool) (gpioA gpioB : Nat) (g : Gamepad) :
    tickCore M TT gpioA gpioB g
      = (slotsOf M gpioA gpioB).foldl (fun st v => HANDLE_KEY v TT st) ⟨g.releaseAll, 0, 0⟩ :=
  foldl_buttons_eq_slots M TT gpioA gpioB (List.range N_BUTTONS) _

theorem foldl_HANDLE_KEY_pressed (TT : Bool) :
    ∀ (l : List Int) (st : TickState),
      ((l.foldl (fun st v => HANDLE_KEY v TT st) st).pad.pressed)
        = st.pad.pressed ++ l.flatMap (slotPress TT) := by
  intro l
  induction l with
  | nil => intro st; simp
  | cons v l ih =>
    intro st
    simp [ih, HANDLE_KEY_pressed, List.append_assoc]

theorem foldl_HANDLE_KEY_pad_dpad (TT : Bool) :
    ∀ (l : List Int) (st : TickState),
      ((l.foldl (fun st v => HANDLE_KEY v TT st) st).pad.dpad) = st.pad.dpad := by
  intro l
  induction l with
  | nil => intro st; rfl
  | cons v l ih =>
    intro st
    simp [ih, HANDLE_KEY_pad_dpad]

theorem foldl_HANDLE_KEY_dpad_x (TT : Bool) :
    ∀ (l : List Int) (st : TickState),
      ((l.foldl (fun st v => HANDLE_KEY v TT st) st).dpad_x)
        = l.foldl stepFnX st.dpad_x := by
  intro l
  induction l with
  | nil => intro st; rfl
  | cons v l ih =>
    intro st
    simp [ih, HANDLE_KEY_dpad_x]

theorem foldl_HANDLE_KEY_dpad_y (TT : Bool) :
    ∀ (l : List Int) (st : TickState),
      ((l.foldl (fun st v => HANDLE_KEY v TT st) st).dpad_y)
        = l.foldl stepFnY st.dpad_y := by
  intro l
  induction l with
  | nil => intro st; rfl
  | cons v l ih =>
    intro st
    simp [ih, HANDLE_KEY_dpad_y]

/-! ### The accumulator invariant -/

theorem stepFnX_range {a : Int} (v : Int) (h1 : -1 ≤ a) (h2 : a ≤ 1) :
    -1 ≤ stepFnX a v ∧ stepFnX a v ≤ 1 := by
  unfold stepFnX
  split
  · exact clampAxis_range _
  · exact ⟨h1, h2⟩

theorem stepFnY_range {a : Int} (v : Int) (h1 : -1 ≤ a) (h2 : a ≤ 1) :
    -1 ≤ stepFnY a v ∧ stepFnY a v ≤ 1 := by
  unfold stepFnY
  split
  · exact clampAxis_range _
  · exact ⟨h1, h2⟩

theorem foldl_stepFnX_range :
    ∀ (l : List Int) (a : Int), -1 ≤ a → a ≤ 1 →
      -1 ≤ l.foldl stepFnX a ∧ l.foldl stepFnX a ≤ 1 := by
  intro l
  induction l with
  | nil => intro a h1 h2; exact ⟨h1, h2⟩
  | cons v l ih =>
    intro a h1 h2
    obtain ⟨g1, g2⟩ := stepFnX_range v h1 h2
    exact ih _ g1 g2

theorem foldl_stepFnY_range :
    ∀ (l : List Int) (a : Int), -1 ≤ a → a ≤ 1 →
      -1 ≤ l.foldl stepFnY a ∧ l.foldl stepFnY a ≤ 1 := by
  intro l
  induction l with
  | nil => intro a h1 h2; exact ⟨h1, h2⟩
  | cons v l ih =>
    intro a h1 h2
    obtain ⟨g1, g2⟩ := stepFnY_range v h1 h2
    exact ih _ g1 g2

theorem tickCore_dpad_x_range (M : Mapping) (TT : Bool) (gpioA gpioB : Nat) (g : Gamepad) :
    -1 ≤ (tickCore M TT gpioA gpioB g).dpad_x ∧ (tickCore M TT gpioA gpioB g).dpad_x ≤ 1 := by
  rw [tickCore_eq_foldl, foldl_HANDLE_KEY_dpad_x]
  exact foldl_stepFnX_range _ 0 (by omega) (by omega)

theorem tickCore_dpad_y_range (M : Mapping) (TT : Bool) (gpioA gpioB : Nat) (g : Gamepad) :
    -1 ≤ (tickCore M TT gpioA gpioB g).dpad_y ∧ (tickCore M TT gpioA gpioB g).dpad_y ≤ 1 := by
  rw [tickCore_eq_foldl, foldl_HANDLE_KEY_dpad_y]
  exact foldl_stepFnY_range _ 0 (by omega) (by omega)

/-! ### Facts about the SOCD dispatch chain -/

theorem socdClean_pressed (x y : Int) (g : Gamepad) :
    (socdClean x y g).pressed = g.pressed := by
  unfold socdClean Gamepad.dPad
  split_ifs <;> rfl

theorem socdClean_dpad_of_range {x y : Int}
    (hx1 : -1 ≤ x) (hx2 : x ≤ 1) (hy1 : -1 ≤ y) (hy2 : y ≤ 1) (g : Gamepad) :
    (socdClean x y g).dpad = dirOf x y := by
  interval_cases x <;> interval_cases y <;> rfl

theorem socdHits_of_range {x y : Int}
    (hx1 : -1 ≤ x) (hx2 : x ≤ 1) (hy1 : -1 ≤ y) (hy2 : y ≤ 1) :
    socdHits x y = 1 := by
  interval_cases x <;> interval_cases y <;> rfl

theorem xContribs_cons_of_step (v : Int) (l : List Int) (hdp : IS_DP (magOf v) = true)
    (hz : dirStepX (magOf v) ≠ 0) :
    xContribs (v :: l) = dirStepX (magOf v) :: xContribs l := by
  simp [xContribs, List.filterMap_cons, hdp, hz]

theorem xContribs_cons_of_skip (v : Int) (l : List Int)
    (h : IS_DP (magOf v) = false ∨ dirStepX (magOf v) = 0) :
    xContribs (v :: l) = xContribs l := by
  rcases h with h | h <;> simp [xContribs, List.filterMap_cons, h]

theorem yContribs_cons_of_step (v : Int) (l : List Int) (hdp : IS_DP (magOf v) = true)
    (hz : dirStepY (magOf v) ≠ 0) :
    yContribs (v :: l) = dirStepY (magOf v) :: yContribs l := by
  simp [yContribs, List.filterMap_cons, hdp, hz]

theorem yContribs_cons_of_skip (v : Int) (l : List Int)
    (h : IS_DP (magOf v) = false ∨ dirStepY (magOf v) = 0) :
    yContribs (v :: l) = yContribs l := by
  rcases h with h | h <;> simp [yContribs, List.filterMap_cons, h]

theorem foldl_stepFnX_eq_satAdd :
    ∀ (l : List Int) (a : Int), -1 ≤ a → a ≤ 1 →
      l.foldl stepFnX a = (xContribs l).foldl satAdd a := by
  intro l
  induction l with
  | nil => intro a _ _; rfl
  | cons v l ih =>
    intro a h1 h2
    by_cases hdp : IS_DP (magOf v) = true
    · by_cases hz : dirStepX (magOf v) = 0
      · have hs : stepFnX a v = a := by
          simp [stepFnX, hdp, hz, clampAxis_of_range h1 h2]
        rw [List.foldl_cons, hs, xContribs_cons_of_skip v l (Or.inr hz)]
        exact ih a h1 h2
      · have hs : stepFnX a v = satAdd a (dirStepX (magOf v)) := by
          simp [stepFnX, hdp, satAdd]
        obtain ⟨g1, g2⟩ := clampAxis_range (a + dirStepX (magOf v))
        rw [List.foldl_cons, hs, xContribs_cons_of_step v l hdp hz, List.foldl_cons]
        exact ih _ g1 g2
    · have hs : stepFnX a v = a := by simp [stepFnX, hdp]
      rw [List.foldl_cons, hs,
        xContribs_cons_of_skip v l (Or.inl (Bool.not_eq_true _ ▸ hdp))]
      exact ih a h1 h2

theorem foldl_stepFnY_eq_satAdd :
    ∀ (l : List Int) (a : Int), -1 ≤ a → a ≤ 1 →
      l.foldl stepFnY a = (yContribs l).foldl satAdd a := by
  intro l
  induction l with
  | nil => intro a _ _; rfl
  | cons v l ih =>
    intro a h1 h2
    by_cases hdp : IS_DP (magOf v) = true
    · by_cases hz : dirStepY (magOf v) = 0
      · have hs : stepFnY a v = a := by
          simp [stepFnY, hdp, hz, clampAxis_of_range h1 h2]
        rw [List.foldl_cons, hs, yContribs_cons_of_skip v l (Or.inr hz)]
        exact ih a h1 h2
      · have hs : stepFnY a v = satAdd a (dirStepY (magOf v)) := by
          simp [stepFnY, hdp, satAdd]
        obtain ⟨g1, g2⟩ := clampAxis_range (a + dirStepY (magOf v))
        rw [List.foldl_cons, hs, yContribs_cons_of_step v l hdp hz, List.foldl_cons]
        exact ih _ g1 g2
    · have hs : stepFnY a v = a := by simp [stepFnY, hdp]
      rw [List.foldl_cons, hs,
        yContribs_cons_of_skip v l (Or.inl (Bool.not_eq_true _ ▸ hdp))]
      exact ih a h1 h2

theorem sum_xContribs (l : List Int) : (xContribs l).sum = sumContribsX l := by
  induction l with
  | nil => rfl
  | cons v l ih =>
    by_cases hdp : IS_DP (magOf v) = true
    · by_cases hz : dirStepX (magOf v) = 0
      · rw [xContribs_cons_of_skip v l (Or.inr hz)]
        simp [sumContribsX, hdp, hz, ih]
      · rw [xContribs_cons_of_step v l hdp hz]
        simp [sumContribsX, hdp, List.sum_cons, ih]
    · rw [xContribs_cons_of_skip v l (Or.inl (Bool.not_eq_true _ ▸ hdp))]
      simp [sumContribsX, hdp, ih]

theorem sum_yContribs (l : List Int) : (yContribs l).sum = sumContribsY l := by
  induction l with
  | nil => rfl
  | cons v l ih =>
    by_cases hdp : IS_DP (magOf v) = true
    · by_cases hz : dirStepY (magOf v) = 0
      · rw [yContribs_cons_of_skip v l (Or.inr hz)]
        simp [sumContribsY, hdp, hz, ih]
      · rw [yContribs_cons_of_step v l hdp hz]
        simp [sumContribsY, hdp, List.sum_cons, ih]
    · rw [yContribs_cons_of_skip v l (Or.inl (Bool.not_eq_true _ ▸ hdp))]
      simp [sumContribsY, hdp, ih]

theorem dirStepX_cases (k : Int) : dirStepX k = 1 ∨ dirStepX k = -1 ∨ dirStepX k = 0 := by
  unfold dirStepX
  split_ifs <;> simp

theorem dirStepY_cases (k : Int) : dirStepY k = 1 ∨ dirStepY k = -1 ∨ dirStepY k = 0 := by
  unfold dirStepY
  split_ifs <;> simp

theorem xContribs_mem {l : List Int} {d : Int} (h : d ∈ xContribs l) : d = -1 ∨ d = 1 := by
  unfold xContribs at h
  obtain ⟨v, _, hv⟩ := List.mem_filterMap.mp h
  by_cases hc : (IS_DP (magOf v) && decide (dirStepX (magOf v) ≠ 0)) = true
  · rw [if_pos hc] at hv
    obtain ⟨_, hz⟩ := Bool.and_eq_true_iff.mp hc
    rcases dirStepX_cases (magOf v) with h1 | h1 | h1 <;>
      simp_all
  · rw [if_neg hc] at hv
    exact absurd hv (by simp)

theorem yContribs_mem {l : List Int} {d : Int} (h : d ∈ yContribs l) : d = -1 ∨ d = 1 := by
  unfold yContribs at h
  obtain ⟨v, _, hv⟩ := List.mem_filterMap.mp h
  by_cases hc : (IS_DP (magOf v) && decide (dirStepY (magOf v) ≠ 0)) = true
  · rw [if_pos hc] at hv
    obtain ⟨_, hz⟩ := Bool.and_eq_true_iff.mp hc
    rcases dirStepY_cases (magOf v) with h1 | h1 | h1 <;>
      simp_all
  · rw [if_neg hc] at hv
    exact absurd hv (by simp)

theorem satAdd_short (l : List Int) (hmem : ∀ d ∈ l, d = -1 ∨ d = 1)
    (hlen : l.length ≤ 2) : l.foldl satAdd 0 = clampAxis l.sum := by
  match l with
  | [] => decide
  | [a] =>
    rcases hmem a (by simp) with rfl | rfl <;> decide
  | [a, b] =>
    rcases hmem a (by simp) with rfl | rfl <;> rcases hmem b (by simp) with rfl | rfl <;> decide
  | a :: b :: c :: l' => simp at hlen

/-! ### Turbo clock lemmas -/

theorem turboStep_shape (s : TurboState) (now : Nat) :
    turboStep s now = s ∨ turboStep s now = { TT := !s.TT, last_toggle_time := now } := by
  unfold turboStep
  split
  · exact Or.inr rfl
  · exact Or.inl rfl

theorem turboToggles_sublist : ∀ (ts : List Nat) (s : TurboState),
    List.Sublist (turboToggles s ts) ts := by
  intro ts
  induction ts with
  | nil => intro s; exact List.Sublist.refl []
  | cons now ts ih =>
    intro s
    show (let s2 := turboStep s now;
      if s2.TT = s.TT then turboToggles s2 ts else now :: turboToggles s2 ts).Sublist (now :: ts)
    by_cases h : (turboStep s now).TT = s.TT
    · simpa [h] using List.Sublist.cons now (ih (turboStep s now))
    · simpa [h] using List.Sublist.cons₂ now (ih (turboStep s now))

theorem turboToggles_chain : ∀ (ts : List Nat) (s : TurboState),
    ts.Pairwise (· ≤ ·) → (∀ t ∈ ts, t < ULONG_MOD) →
    (∀ t ∈ ts, s.last_toggle_time ≤ t) →
    List.Chain (fun a b => 40 ≤ 3 * (b - a)) s.last_toggle_time (turboToggles s ts) := by
  intro ts
  induction ts with
  | nil => intro s _ _ _; exact List.Chain.nil
  | cons now ts ih =>
    intro s hmono hbound hlast
    obtain ⟨hnow_le, hmono'⟩ := List.pairwise_cons.mp hmono
    have hnow_big : now < ULONG_MOD := hbound now (by simp)
    have hmod : (now - s.last_toggle_time) % ULONG_MOD = now - s.last_toggle_time :=
      Nat.mod_eq_of_lt (lt_of_le_of_lt (Nat.sub_le _ _) hnow_big)
    have hle : s.last_toggle_time ≤ now := hlast now (by simp)
    by_cases hc : 40 ≤ 3 * (now - s.last_toggle_time)
    · have hstep : turboStep s now = { TT := !s.TT, last_toggle_time := now } := by
        unfold turboStep
        rw [hmod, if_pos hc]
      have hflip : (turboStep s now).TT ≠ s.TT := by
        rw [hstep]
        exact Bool.not_ne_self s.TT
      show List.Chain _ s.last_toggle_time
        (let s2 := turboStep s now;
         if s2.TT = s.TT then turboToggles s2 ts else now :: turboToggles s2 ts)
      simp only [hflip, if_neg, if_false]
      refine List.Chain.cons hc ?_
      have := ih { TT := !s.TT, last_toggle_time := now } hmono'
        (fun t ht => hbound t (by simp [ht]))
        (fun t ht => hnow_le t ht)
      rw [hstep]
      exact this
    · have hstep : turboStep s now = s := by
        unfold turboStep
        rw [hmod, if_neg hc]
      show List.Chain _ s.last_toggle_time
        (let s2 := turboStep s now;
         if s2.TT = s.TT then turboToggles s2 ts else now :: turboToggles s2 ts)
      simp only [hstep, if_pos rfl]
      exact ih s hmono' (fun t ht => hbound t (by simp [ht]))
        (fun t ht => le_trans hle (hnow_le t ht))

theorem chain_to_chain' {α : Type} {R : α → α → Prop} {a : α} {l : List α}
    (h : List.Chain R a l) : List.Chain' R l := by
  cases l with
  | nil => trivial
  | cons b l => exact (List.chain_cons.mp h).2

/-! ### Remaining helper lemmas -/

/-- Because `main_loop.h` assigns `GPIOA_state = reading_gpioa;` directly
after reading, the debounced state always equals the newest raw reading. -/
theorem debounceStep_state (d : DebounceState) (now reading : Nat) :
    (debounceStep d now reading).state = reading := by
  unfold debounceStep
  split <;> simp

theorem IS_DP_not_IS_BUTTON {k : Int} (h : IS_DP k = true) : IS_BUTTON k = false := by
  simp only [IS_BUTTON, IS_DP, K_A, K_CAPTURE, K_DP_UP, K_DP_CENTER,
    decide_eq_true_eq, decide_eq_false_iff_not] at *
  omega

theorem magOf_nonneg (v : Int) : 0 ≤ magOf v := by
  unfold magOf
  split <;> omega

theorem magOf_of_nonneg {w : Int} (h : 0 ≤ w) : magOf w = w := by
  unfold magOf
  split <;> omega

theorem magOf_idem (v : Int) : magOf (magOf v) = magOf v :=
  magOf_of_nonneg (magOf_nonneg v)

theorem scanl_HANDLE_KEY_range (TT : Bool) :
    ∀ (l : List Int) (s0 : TickState),
      -1 ≤ s0.dpad_x → s0.dpad_x ≤ 1 → -1 ≤ s0.dpad_y → s0.dpad_y ≤ 1 →
      ∀ st ∈ List.scanl (fun s v => HANDLE_KEY v TT s) s0 l,
        -1 ≤ st.dpad_x ∧ st.dpad_x ≤ 1 ∧ -1 ≤ st.dpad_y ∧ st.dpad_y ≤ 1 := by
  intro l
  induction l with
  | nil =>
    intro s0 h1 h2 h3 h4 st hst
    simp only [List.scanl_nil, List.mem_singleton] at hst
    subst hst
    exact ⟨h1, h2, h3, h4⟩
  | cons v l ih =>
    intro s0 h1 h2 h3 h4 st hst
    simp only [List.scanl_cons, List.singleton_append, List.mem_cons] at hst
    rcases hst with rfl | hst
    · exact ⟨h1, h2, h3, h4⟩
    · obtain ⟨g1, g2⟩ : -1 ≤ (HANDLE_KEY v TT s0).dpad_x ∧ (HANDLE_KEY v TT s0).dpad_x ≤ 1 := by
        rw [HANDLE_KEY_dpad_x]
        exact stepFnX_range v h1 h2
      obtain ⟨g3, g4⟩ : -1 ≤ (HANDLE_KEY v TT s0).dpad_y ∧ (HANDLE_KEY v TT s0).dpad_y ≤ 1 := by
        rw [HANDLE_KEY_dpad_y]
        exact stepFnY_range v h3 h4
      exact ih _ g1 g2 g3 g4 st hst

/-! ## Claim theorems -/

/-- C1 (code_bug): the debouncing of `main_loop.h` is ineffective.  Because
`GPIOA_state = reading_gpioa;` runs before the debounce logic, the stable
snapshot always equals the newest raw reading (first conjunct), so a raw
change is adopted immediately: starting from a stable `0xff` snapshot, a
bounce to `0xfe` at `t = 1` ms — elapsed time `1 ≤ DEBOUNCING` since the
transition was just recorded — already changes the stable snapshot, and the
revert at `t = 2` ms changes it back, contradicting the claimed bounce
rejection.  -/
theorem C1_debounce_ineffective :
    (∀ (d : DebounceState) (now reading : Nat), (debounceStep d now reading).state = reading) ∧
    (debounceStep ⟨255, 255, 0⟩ 1 254).state = 254 ∧
    ((1 : Nat) - (debounceStep ⟨255, 255, 0⟩ 1 254).last_debounce_time) % ULONG_MOD ≤ DEBOUNCING ∧
    (debounceStep (debounceStep ⟨255, 255, 0⟩ 1 254) 2 255).state = 255 ∧
    ((2 : Nat) - (debounceStep (debounceStep ⟨255, 255, 0⟩ 1 254) 2 255).last_debounce_time) % ULONG_MOD
      ≤ DEBOUNCING := by
  refine ⟨debounceStep_state, ?_, ?_, ?_, ?_⟩ <;> decide

/-- C2 (counterexample): pressing only button 0 (GPIOB byte `0xf7`, MCP pin
11) under `cexMapping` resolves slots up, up, down; the code's
per-contribution clamping yields accumulator `(0, 0)` and dispatches
center, while clamping the exact integer sum per axis — as the claim
states — yields `(0, 1)` and direction up.  -/
theorem C2_clamp_counterexample :
    (tick cexMapping initState 0 255 247).pad.dpad ≠
      dirOf (clampAxis (sumContribsX (slotsOf cexMapping 255 247)))
            (clampAxis (sumContribsY (slotsOf cexMapping 255 247))) := by
  decide

/-- C2 (amended): each axis of the direction accumulator is clamped to
`{-1,0,1}` immediately after every directional contribution, not only after
all contributions have been summed; whenever each axis receives at most two
nonzero directional contributions in the tick — in particular whenever
opposing contributions come in simple pairs — the final accumulator (and
hence the dispatched direction) still equals the one obtained by clamping
the exact integer sum per axis.  -/
theorem C2_clamp_after_each_amended (M : Mapping) (gpioA gpioB : Nat) (TT : Bool) (g : Gamepad)
    (hx : (xContribs (slotsOf M gpioA gpioB)).length ≤ 2)
    (hy : (yContribs (slotsOf M gpioA gpioB)).length ≤ 2) :
    (tickCore M TT gpioA gpioB g).dpad_x = clampAxis (sumContribsX (slotsOf M gpioA gpioB)) ∧
    (tickCore M TT gpioA gpioB g).dpad_y = clampAxis (sumContribsY (slotsOf M gpioA gpioB)) ∧
    (∀ (s : LoopState) (now : Nat),
      (tick M s now gpioA gpioB).pad.dpad
        = dirOf (clampAxis (sumContribsX (slotsOf M gpioA gpioB)))
                (clampAxis (sumContribsY (slotsOf M gpioA gpioB)))) := by
  have key : ∀ (tt : Bool) (g' : Gamepad),
      (tickCore M tt gpioA gpioB g').dpad_x = clampAxis (sumContribsX (slotsOf M gpioA gpioB)) ∧
      (tickCore M tt gpioA gpioB g').dpad_y = clampAxis (sumContribsY (slotsOf M gpioA gpioB)) := by
    intro tt g'
    constructor
    · rw [tickCore_eq_foldl, foldl_HANDLE_KEY_dpad_x]
      show (slotsOf M gpioA gpioB).foldl stepFnX 0 = _
      rw [foldl_stepFnX_eq_satAdd _ 0 (by omega) (by omega),
        satAdd_short _ (fun d hd => xContribs_mem hd) hx, sum_xContribs]
    · rw [tickCore_eq_foldl, foldl_HANDLE_KEY_dpad_y]
      show (slotsOf M gpioA gpioB).foldl stepFnY 0 = _
      rw [foldl_stepFnY_eq_satAdd _ 0 (by omega) (by omega),
        satAdd_short _ (fun d hd => yContribs_mem hd) hy, sum_yContribs]
  refine ⟨(key TT g).1, (key TT g).2, ?_⟩
  intro s now
  show (socdClean _ _ _).dpad = _
  rw [debounceStep_state, debounceStep_state]
  rw [socdClean_dpad_of_range
    (tickCore_dpad_x_range M _ gpioA gpioB s.pad).1
    (tickCore_dpad_x_range M _ gpioA gpioB s.pad).2
    (tickCore_dpad_y_range M _ gpioA gpioB s.pad).1
    (tickCore_dpad_y_range M _ gpioA gpioB s.pad).2,
    (key _ s.pad).1, (key _ s.pad).2]

/-- C2 witness: a plain SOCD situation — buttons 0 (left) and 2 (right)
pressed under a standard-style mapping — has one nonzero contribution of
each sign on the x axis, and the amended statement applies.  -/
theorem C2_clamp_after_each_witness :
    (tickCore ⟨fun b => if b = 0 then K_DP_LEFT else if b = 2 then K_DP_RIGHT else K_NOOP,
       fun _ => K_NOOP, fun _ => K_NOOP⟩ false 255 215 ⟨[], 8⟩).dpad_x
      = clampAxis (sumContribsX (slotsOf
          ⟨fun b => if b = 0 then K_DP_LEFT else if b = 2 then K_DP_RIGHT else K_NOOP,
           fun _ => K_NOOP, fun _ => K_NOOP⟩ 255 215)) :=
  (C2_clamp_after_each_amended _ 255 215 false ⟨[], 8⟩ (by decide) (by decide)).1

/-- C3 (confirmed): for a slot whose magnitude is an ordinary button key, a
turbo-flagged slot (negative value) emits a gamepad press exactly when the
turbo phase is hot, a non-turbo slot always emits a press; either way the
direction accumulator is untouched.  -/
theorem C3_turbo_gating (v : Int) (TT : Bool) (s : TickState)
    (h : IS_BUTTON (magOf v) = true) :
    (HANDLE_KEY v TT s).pad.pressed
      = (if 0 ≤ v ∨ TT = true then s.pad.pressed ++ [KEYS2PAD (magOf v)] else s.pad.pressed) ∧
    (HANDLE_KEY v TT s).dpad_x = s.dpad_x ∧ (HANDLE_KEY v TT s).dpad_y = s.dpad_y := by
  refine ⟨?_, ?_, ?_⟩
  · rw [HANDLE_KEY_pressed]
    unfold slotPress
    by_cases h0 : (0 : Int) ≤ v <;> cases TT <;> simp [h, h0]
  · rw [HANDLE_KEY_dpad_x]
    simp [stepFnX, IS_BUTTON_not_IS_DP h]
  · rw [HANDLE_KEY_dpad_y]
    simp [stepFnY, IS_BUTTON_not_IS_DP h]

/-- C3 witness: a turbo-flagged A-button slot (`-K_A`) on a hot phase emits
the press. -/
theorem C3_turbo_gating_witness :
    (HANDLE_KEY (-K_A) true ⟨⟨[], 8⟩, 0, 0⟩).pad.pressed = [KEYS2PAD K_A] := by
  have h := C3_turbo_gating (-K_A) true ⟨⟨[], 8⟩, 0, 0⟩ (by decide)
  simpa using h.1

/-- C4 (confirmed): a slot whose magnitude is a directional key behaves
identically whatever its turbo flag and whatever the turbo phase: resolving
it equals resolving the unflagged key under any phase.  -/
theorem C4_turbo_never_directions (v : Int) (TT TT' : Bool) (s : TickState)
    (h : IS_DP (magOf v) = true) :
    HANDLE_KEY v TT s = HANDLE_KEY (magOf v) TT' s := by
  unfold HANDLE_KEY
  rw [magOf_idem]
  simp [IS_DP_not_IS_BUTTON h]

/-- C4 witness: a turbo-flagged left slot under a cold phase equals the
plain left slot under a hot phase. -/
theorem C4_turbo_never_directions_witness :
    HANDLE_KEY (-K_DP_LEFT) false ⟨⟨[], 8⟩, 0, 0⟩
      = HANDLE_KEY K_DP_LEFT true ⟨⟨[], 8⟩, 0, 0⟩ := by
  have h := C4_turbo_never_directions (-K_DP_LEFT) false true ⟨⟨[], 8⟩, 0, 0⟩ (by decide)
  simpa using h

/-- C5 (confirmed): on `{-1,0,1}²` the SOCD dispatch chain is total and
deterministic — exactly one of its nine guards holds and the D-pad is set to
the canonical direction of the vector, whatever the prior gamepad state —
and every tick unconditionally sets the D-pad to the canonical direction of
its end-of-tick accumulator.  -/
theorem C5_direction_dispatch_total (x y : Int)
    (hx1 : -1 ≤ x) (hx2 : x ≤ 1) (hy1 : -1 ≤ y) (hy2 : y ≤ 1) :
    socdHits x y = 1 ∧
    (∀ g : Gamepad, (socdClean x y g).dpad = dirOf x y) ∧
    (∀ (M : Mapping) (s : LoopState) (now rawA rawB : Nat),
      (tick M s now rawA rawB).pad.dpad
        = dirOf (tickCore M (ttAfter s.turbo now) rawA rawB s.pad).dpad_x
                (tickCore M (ttAfter s.turbo now) rawA rawB s.pad).dpad_y) := by
  refine ⟨socdHits_of_range hx1 hx2 hy1 hy2,
    fun g => socdClean_dpad_of_range hx1 hx2 hy1 hy2 g, ?_⟩
  intro M s now rawA rawB
  show (socdClean _ _ _).dpad = _
  rw [debounceStep_state, debounceStep_state]
  exact socdClean_dpad_of_range
    (tickCore_dpad_x_range M _ rawA rawB s.pad).1
    (tickCore_dpad_x_range M _ rawA rawB s.pad).2
    (tickCore_dpad_y_range M _ rawA rawB s.pad).1
    (tickCore_dpad_y_range M _ rawA rawB s.pad).2 _

/-- C5 witness: the neutral vector satisfies exactly one guard. -/
theorem C5_direction_dispatch_total_witness : socdHits 0 0 = 1 :=
  (C5_direction_dispatch_total 0 0 (by decide) (by decide) (by decide) (by decide)).1

/-- C6 (confirmed): over any monotonically non-decreasing, wrap-free
timestamp sequence, the turbo toggle times form a subsequence of the tick
times (so the toggle flips at most once per tick), any two consecutive
toggles are at least `TURBO_PERIOD = 40/3` ms apart (`40 ≤ 3·Δ`), and each
step either leaves the turbo state unchanged or flips it once — the whole
run being a function of the timestamp sequence alone.  -/
theorem C6_turbo_clock (ts : List Nat) (hmono : ts.Pairwise (· ≤ ·))
    (hbound : ∀ t ∈ ts, t < ULONG_MOD) :
    List.Sublist (turboToggles ⟨false, 0⟩ ts) ts ∧
    List.Chain' (fun a b => 40 ≤ 3 * (b - a)) (turboToggles ⟨false, 0⟩ ts) ∧
    (∀ (s : TurboState) (now : Nat),
      turboStep s now = s ∨ turboStep s now = { TT := !s.TT, last_toggle_time := now }) :=
  ⟨turboToggles_sublist ts ⟨false, 0⟩,
   chain_to_chain' (turboToggles_chain ts ⟨false, 0⟩ hmono hbound (fun t _ => Nat.zero_le t)),
   turboStep_shape⟩

/-- C6 witness: a concrete run with toggles at 14 ms and 30 ms. -/
theorem C6_turbo_clock_witness :
    List.Chain' (fun a b => 40 ≤ 3 * (b - a)) (turboToggles ⟨false, 0⟩ [5, 14, 20, 30]) :=
  (C6_turbo_clock [5, 14, 20, 30] (by decide) (by decide)).2.1

/-- C7 (confirmed): the press list handed to the report sink at the end of a
tick is exactly the one resolved from that tick's pressed buttons and turbo
phase — every tick starts from `releaseAll`, so the result is independent of
whatever the gamepad held before the tick (the prior pad state `s.pad` does
not occur on the right-hand side).  -/
theorem C7_full_replacement (M : Mapping) (s : LoopState) (now rawA rawB : Nat) :
    (tick M s now rawA rawB).pad.pressed
      = resolvedPresses M (ttAfter s.turbo now) rawA rawB := by
  show (socdClean _ _ _).pressed = _
  rw [socdClean_pressed, debounceStep_state, debounceStep_state, tickCore_eq_foldl,
    foldl_HANDLE_KEY_pressed]
  simp [Gamepad.releaseAll, resolvedPresses, ttAfter]

/-- C8 (confirmed): the configuration number `setup.h` computes from the four
binary configuration inputs, `(cfg1 << 3) + (cfg2 << 2) + (cfg3 << 1) + cfg4`,
is always below `N_REMAPPINGS = 16`, so `MAPPINGS[CFG]` is in bounds for
every input combination.  -/
theorem C8_cfg_range : ∀ cfg1 cfg2 cfg3 cfg4 : Bool,
    computeCFG cfg1 cfg2 cfg3 cfg4 < N_REMAPPINGS := by
  decide

/-- C9 (confirmed): the center key `K_DP_CENTER = 9` passes the `IS_DP` test
but is not an ordinary button and matches no case of the directional switch,
so — on any accumulator the tick can actually hold, i.e. clamped to
`{-1,0,1}` per axis — resolving it (turbo-flagged or not) is a complete
no-op: no press and an unchanged state.  -/
theorem C9_center_slot_noop (TT : Bool) (s : TickState)
    (hx1 : -1 ≤ s.dpad_x) (hx2 : s.dpad_x ≤ 1) (hy1 : -1 ≤ s.dpad_y) (hy2 : s.dpad_y ≤ 1) :
    IS_DP K_DP_CENTER = true ∧ IS_BUTTON K_DP_CENTER = false ∧
    HANDLE_KEY K_DP_CENTER TT s = s ∧ HANDLE_KEY (-K_DP_CENTER) TT s = s := by
  obtain ⟨pad, x, y⟩ := s
  simp only [TickState.mk.injEq] at *
  refine ⟨by decide, by decide, ?_, ?_⟩ <;>
    simp [HANDLE_KEY, magOf, IS_BUTTON, IS_DP, dpadSwitch, K_DP_CENTER, K_A, K_CAPTURE,
      K_DP_UP, K_DP_DOWN, K_DP_LEFT, K_DP_RIGHT, K_DP_UP_RIGHT, K_DP_DOWN_RIGHT,
      K_DP_UP_LEFT, K_DP_DOWN_LEFT, clampAxis_of_range hx1 hx2, clampAxis_of_range hy1 hy2]

/-- C9 witness: the center slot is a no-op on the initial tick state. -/
theorem C9_center_slot_noop_witness :
    HANDLE_KEY K_DP_CENTER false ⟨⟨[], 8⟩, 0, 0⟩ = ⟨⟨[], 8⟩, 0, 0⟩ :=
  (C9_center_slot_noop false ⟨⟨[], 8⟩, 0, 0⟩ (by decide) (by decide) (by decide)
    (by decide)).2.2.1

/-- C10 (confirmed): starting from `(0, 0)`, after every single slot
resolution of a tick both accumulator axes lie in `{-1,0,1}` (the clamp at
the end of `HANDLE_KEY`'s directional branch re-establishes the bound at
each step), and consequently the end-of-tick accumulator satisfies exactly
one guard of the direction dispatch chain.  -/
theorem C10_accumulator_invariant (M : Mapping) (gpioA gpioB : Nat) (TT : Bool) (g : Gamepad) :
    (∀ st ∈ List.scanl (fun s v => HANDLE_KEY v TT s) ⟨g.releaseAll, 0, 0⟩
        (slotsOf M gpioA gpioB),
      -1 ≤ st.dpad_x ∧ st.dpad_x ≤ 1 ∧ -1 ≤ st.dpad_y ∧ st.dpad_y ≤ 1) ∧
    socdHits (tickCore M TT gpioA gpioB g).dpad_x (tickCore M TT gpioA gpioB g).dpad_y = 1 := by
  constructor
  · exact scanl_HANDLE_KEY_range TT (slotsOf M gpioA gpioB) ⟨g.releaseAll, 0, 0⟩
      (by simp) (by simp) (by simp) (by simp)
  · exact socdHits_of_range
      (tickCore_dpad_x_range M TT gpioA gpioB g).1
      (tickCore_dpad_x_range M TT gpioA gpioB g).2
      (tickCore_dpad_y_range M TT gpioA gpioB g).1
      (tickCore_dpad_y_range M TT gpioA gpioB g).2

/-- C10 witness: the invariant evaluated on the up-up-down counterexample
mapping with button 0 pressed. -/
theorem C10_accumulator_invariant_witness :
    socdHits (tickCore cexMapping false 255 247 ⟨[], 8⟩).dpad_x
      (tickCore cexMapping false 255 247 ⟨[], 8⟩).dpad_y = 1 :=
  (C10_accumulator_invariant cexMapping 255 247 false ⟨[], 8⟩).2

end Nezoba
